import Mathlib

/-!
A shallow embedding of `custom_components/RuRadioHomeAssist/media_source.py`,
the single module of this repository: a Home Assistant media source exposing
the Radio Browser directory as a browsable catalog of Russian radio stations.

Modelling conventions:
* Python strings are `String`; the Python string operations used by the module
  (`str.split(',')`, `str.strip()`, `str.lower()`, `str.partition('/')`,
  `str.title()`, substring containment) are re-implemented by structural
  recursion over `List Char` so that every definition evaluates inside the
  kernel.  Casing and whitespace classification follow the ASCII fragment.
* Python floats (coordinates, distances) are modelled as `ℚ`; the module only
  compares distances, it never does float arithmetic of its own.
* The external collaborators (the `radios` directory client, the stdlib
  `mimetypes.guess_type`, Home Assistant's `vincenty` helper, and the host
  configuration) are abstract functions bundled in an `Env` record; every
  routine of the module is a pure function of an `Env` and its inputs.
* `mimetypes.guess_type` returns `None` or a non-empty mime string, and
  `radios.station` returns `None` or a `Station` object (always truthy), so
  the module's Python truthiness tests on those results are `Option`
  emptiness tests here.
* Python's `list.sort` is a stable sort; a stable sort by a fixed key is
  extensionally unique, so the stable insertion sort `sortBy` below computes
  exactly the list `list.sort` produces.
-/

/-- The `FilterBy` enumeration of the external `radios` client, restricted to
the members this module uses. -/
inductive FilterBy where
  | COUNTRY_CODE_EXACT
  | LANGUAGE_EXACT
  | TAG_EXACT
deriving DecidableEq

/-- The `Order` enumeration of the external `radios` client, restricted to the
members this module uses. -/
inductive Order where
  | NAME
  | CLICK_COUNT
deriving DecidableEq

/-- The media classes the module assigns to browse nodes. -/
inductive MediaClass where
  | CHANNEL
  | MUSIC
  | DIRECTORY
deriving DecidableEq

/-- The `MediaType.MUSIC` constant of Home Assistant (a plain string). -/
def MediaType.MUSIC : String := "music"

/-- A station record of the external directory service, holding the fields
this module reads.  `latitude`/`longitude` are optional coordinates and
`tags` is a comma-separated free-text string. -/
structure Station where
  uuid : String
  name : String
  codec : String
  url : String
  url_resolved : String
  favicon : String
  latitude : Option ℚ
  longitude : Option ℚ
  countrycode : String
  language : String
  tags : String
deriving DecidableEq

/-- One call to `radios.stations(...)`: the keyword arguments a call site
passes.  `none` in an optional field means the call site left the client's
default in place. -/
structure StationQuery where
  filter_by : FilterBy
  filter_term : String
  hide_broken : Bool
  limit : Option Nat
  order : Option Order
  reverse : Option Bool
deriving DecidableEq

/-- A browse-tree node as the module constructs it (`BrowseMediaSource` of
Home Assistant, restricted to the fields the module passes). -/
inductive BrowseMediaSource where
  | mk
    (domain : String)
    (identifier : Option String)
    (media_class : MediaClass)
    (media_content_type : String)
    (title : String)
    (can_play : Bool)
    (can_expand : Bool)
    (thumbnail : Option String)
    (children_media_class : Option MediaClass)
    (children : Option (List BrowseMediaSource))

/-- The `identifier` field of a browse node. -/
def BrowseMediaSource.identifier : BrowseMediaSource → Option String
  | .mk _ i _ _ _ _ _ _ _ _ => i

/-- The `media_content_type` field of a browse node. -/
def BrowseMediaSource.media_content_type : BrowseMediaSource → String
  | .mk _ _ _ t _ _ _ _ _ _ => t

/-- The `title` field of a browse node. -/
def BrowseMediaSource.title : BrowseMediaSource → String
  | .mk _ _ _ _ t _ _ _ _ _ => t

/-- The `can_play` field of a browse node. -/
def BrowseMediaSource.can_play : BrowseMediaSource → Bool
  | .mk _ _ _ _ _ p _ _ _ _ => p

/-- The `can_expand` field of a browse node. -/
def BrowseMediaSource.can_expand : BrowseMediaSource → Bool
  | .mk _ _ _ _ _ _ e _ _ _ => e

/-- The `thumbnail` field of a browse node. -/
def BrowseMediaSource.thumbnail : BrowseMediaSource → Option String
  | .mk _ _ _ _ _ _ _ th _ _ => th

/-- The `children` field of a browse node. -/
def BrowseMediaSource.children : BrowseMediaSource → Option (List BrowseMediaSource)
  | .mk _ _ _ _ _ _ _ _ _ c => c

/-- The resolved-media value returned by `async_resolve_media`: a playable URL
paired with a mime type. -/
structure PlayMedia where
  url : String
  mime_type : String
deriving DecidableEq

/-- A browse request: the `MediaSourceItem` restricted to the one field the
module reads.  Home Assistant hands the root request with identifier `None`
or the empty string; both are falsy in the module's tests. -/
structure MediaSourceItem where
  identifier : Option String

/-- Python truthiness of an optional string: `None` and `""` are falsy. -/
def pyFalsy : Option String → Bool
  | none => true
  | some s => s == ""

/-- The external collaborators and host configuration, injected once at
startup: the directory client's `stations`, `station` queries, the stdlib
`mimetypes.guess_type` (never returns an empty string, so its Python-falsy
result is exactly `none`), Home Assistant's `vincenty` distance helper
(arguments: two `(latitude, longitude)` pairs and the miles flag; `none`
models non-convergence), the configured home coordinate, and the config
entry's title. -/
structure Env where
  stations : StationQuery → List Station
  station : String → Option Station
  guess_type : String → Option String
  vincenty : ℚ × ℚ → ℚ × ℚ → Bool → Option ℚ
  latitude : ℚ
  longitude : ℚ
  title : String

/-- The integration's domain constant.  Modelled from the spec: the module
imports `DOMAIN` from `const.py`, which is not among the repository files in
scope; its exact value is opaque framework metadata and affects no claim. -/
def DOMAIN : String := "ruradio_homeassist"

/-- The fixed codec-to-mime table of the module, as a lookup function
(`CODEC_TO_MIMETYPE.get` in the source). -/
def CODEC_TO_MIMETYPE : String → Option String
  | "MP3" => some "audio/mpeg"
  | "AAC" => some "audio/aac"
  | "AAC+" => some "audio/aac"
  | "OGG" => some "application/ogg"
  | _ => none

/-- Python `str.split(sep)` for a one-character separator: splits at every
occurrence, keeping empty pieces (`"".split(',') == [""]`). -/
def splitChar (sep : Char) : List Char → List (List Char)
  | [] => [[]]
  | c :: rest =>
    if c = sep then [] :: splitChar sep rest
    else
      match splitChar sep rest with
      | [] => [[c]]
      | piece :: more => (c :: piece) :: more

/-- Python `str.strip()` over the ASCII whitespace fragment: drop whitespace
from both ends. -/
def pyStrip (l : List Char) : List Char :=
  ((l.dropWhile Char.isWhitespace).reverse.dropWhile Char.isWhitespace).reverse

/-- Python `str.lower()` over the ASCII fragment. -/
def pyLower (l : List Char) : List Char :=
  l.map Char.toLower

/-- Python substring containment, `needle in hay`. -/
def containsSeq (needle : List Char) : List Char → Bool
  | [] => needle.isEmpty
  | c :: rest => needle.isPrefixOf (c :: rest) || containsSeq needle rest

/-- The characters before and after the first occurrence of `sep`, or `none`
when `sep` does not occur. -/
def splitFirst (sep : Char) : List Char → Option (List Char × List Char)
  | [] => none
  | c :: rest =>
    if c = sep then some ([], rest)
    else (splitFirst sep rest).map (fun p => (c :: p.1, p.2))

/-- Python `str.partition(sep)` for a one-character separator: the text before
the first occurrence, the separator, and the text after; `(s, "", "")` when
the separator does not occur. -/
def pyPartition (s : String) (sep : Char) : String × String × String :=
  match splitFirst sep s.data with
  | none => (s, "", "")
  | some p => (String.mk p.1, String.mk [sep], String.mk p.2)

/-- Python `str.title()` over the ASCII fragment: a letter after a non-letter
is uppercased, a letter after a letter is lowercased. -/
def pyTitleAux : Bool → List Char → List Char
  | _, [] => []
  | prevCased, c :: rest =>
    if c.isAlpha then
      (if prevCased then c.toLower else c.toUpper) :: pyTitleAux true rest
    else c :: pyTitleAux false rest

/-- Python `str.title()` on a string. -/
def pyTitle (s : String) : String :=
  String.mk (pyTitleAux false s.data)

/-- A stable insertion into a sorted list: `a` goes in front of the first
element `b` with `le a b`. -/
def insertSorted (le : α → α → Bool) (a : α) : List α → List α
  | [] => [a]
  | b :: l => if le a b then a :: b :: l else b :: insertSorted le a l

/-- A stable sort by the boolean relation `le`.  Python's `list.sort` is
stable, and a stable sort by a fixed key has a unique result, so this computes
exactly what `list.sort(key=...)` produces. -/
def sortBy (le : α → α → Bool) : List α → List α
  | [] => []
  | a :: l => insertSorted le a (sortBy le l)

/-- The comma-separated pieces of a station's `tags` field after trimming,
with empty pieces discarded (the inner loop of the tag aggregation). -/
def tagPieces (tags : String) : List String :=
  ((splitChar ',' tags.data).map (fun p => String.mk (pyStrip p))).filter
    (fun p => p ≠ "")

/-- One `tag_count[tag] = tag_count.get(tag, 0) + 1` step on the
insertion-ordered dictionary (a Python `dict` keeps first-insertion order:
an existing key is updated in place, a new key is appended). -/
def bumpTag (m : List (String × Nat)) (t : String) : List (String × Nat) :=
  match m.lookup t with
  | some n => m.map (fun p => if p.1 = t then (p.1, n + 1) else p)
  | none => m ++ [(t, 1)]

/-- The value of a key in the insertion-ordered dictionary,
`tag_count.get(t, 0)`. -/
def countOf (m : List (String × Nat)) (t : String) : Nat :=
  (m.lookup t).getD 0

/-- The tag-occurrence dictionary built by the tag-index branch of
`_async_build_by_tag`: for every station with a truthy `tags` field, split on
commas, strip each piece, and count every non-empty piece. -/
def tagCounts (stations : List Station) : List (String × Nat) :=
  stations.foldl
    (fun m station =>
      if station.tags = "" then m else (tagPieces station.tags).foldl bumpTag m)
    []

/-- The ranked tag list of the tag-index branch: the dictionary items sorted
by count descending (stable), truncated to the top 100, then re-sorted
alphabetically by tag name. -/
def tagIndex (stations : List Station) : List (String × Nat) :=
  sortBy (fun a b => decide (a.1 ≤ b.1))
    ((sortBy (fun a b => decide (b.2 ≤ a.2)) (tagCounts stations)).take 100)

/-- The tag-category node built for one entry of the ranked tag list. -/
def mkTagNode (t : String × Nat) : BrowseMediaSource :=
  .mk DOMAIN (some ("tag/" ++ t.1)) .DIRECTORY MediaType.MUSIC (pyTitle t.1)
    false true none none none

/-- The "By Category" entry-point node returned at the root by
`_async_build_by_tag`. -/
def tagEntryNode : BrowseMediaSource :=
  .mk DOMAIN (some "tag") .DIRECTORY MediaType.MUSIC "By Category"
    false true none none none

/-- The mime-type determination `_async_get_station_mime_type`: the fixed
codec table first, the URL-extension guess only when the table yields
nothing. -/
def _async_get_station_mime_type (env : Env) (station : Station) : Option String :=
  match CODEC_TO_MIMETYPE station.codec with
  | some mime_type => some mime_type
  | none => env.guess_type station.url

/-- The playable leaf node `_async_build_stations` appends for a retained
station. -/
def mkStationNode (station : Station) (mime_type : String) : BrowseMediaSource :=
  .mk DOMAIN (some station.uuid) .MUSIC mime_type station.name
    true false (some station.favicon) none none

/-- The loop body of `_async_build_stations` as a per-station function: skip
the station when its codec is the sentinel `"UNKNOWN"` or no mime type can be
determined, otherwise produce its playable leaf node. -/
def renderStation (env : Env) (station : Station) : Option BrowseMediaSource :=
  if station.codec = "UNKNOWN" then none
  else
    match _async_get_station_mime_type env station with
    | none => none
    | some mime_type => some (mkStationNode station mime_type)

/-- The station-to-node mapper `_async_build_stations`: one pass over the
station list, skipping stations with codec `"UNKNOWN"` or no determinable
mime type. -/
def _async_build_stations (env : Env) : List Station → List BrowseMediaSource
  | [] => []
  | station :: rest =>
    if station.codec = "UNKNOWN" then _async_build_stations env rest
    else
      match _async_get_station_mime_type env station with
      | none => _async_build_stations env rest
      | some mime_type =>
        mkStationNode station mime_type :: _async_build_stations env rest

/-- The by-country builder `_async_build_by_country`: at the root, query
stations by exact country code `"RU"`, ordered by name. -/
def _async_build_by_country (env : Env) (item : MediaSourceItem) :
    List BrowseMediaSource :=
  if pyFalsy item.identifier then
    _async_build_stations env
      (env.stations
        ⟨.COUNTRY_CODE_EXACT, "RU", true, none, some .NAME, some false⟩)
  else []

/-- The by-language builder `_async_build_by_language`: at the root, query
stations by exact language `"russian"`, ordered by name. -/
def _async_build_by_language (env : Env) (item : MediaSourceItem) :
    List BrowseMediaSource :=
  if pyFalsy item.identifier then
    _async_build_stations env
      (env.stations
        ⟨.LANGUAGE_EXACT, "russian", true, none, some .NAME, some false⟩)
  else []

/-- The popular builder `_async_build_popular`: at the root, query stations by
exact country code `"RU"`, ordered by click count descending, capped at
250. -/
def _async_build_popular (env : Env) (item : MediaSourceItem) :
    List BrowseMediaSource :=
  if pyFalsy item.identifier then
    _async_build_stations env
      (env.stations
        ⟨.COUNTRY_CODE_EXACT, "RU", true, some 250, some .CLICK_COUNT, some true⟩)
  else []

/-- The regional post-filter of the `tag/<name>` branch: keep a station when
its country code is `"RU"` or `"russian"` occurs in its lowercased language
field. -/
def russianStation (station : Station) : Bool :=
  station.countrycode == "RU" ||
    containsSeq "russian".data (pyLower station.language.data)

/-- The by-tag builder `_async_build_by_tag`: on `"tag/<name>"` query by exact
tag and post-filter to Russian stations; on exactly `"tag"` build the ranked
tag-category index; at the root return the single "By Category" entry node;
otherwise nothing. -/
def _async_build_by_tag (env : Env) (item : MediaSourceItem) :
    List BrowseMediaSource :=
  let parts := pyPartition (item.identifier.getD "") '/'
  if parts.1 = "tag" ∧ parts.2.2 ≠ "" then
    _async_build_stations env
      ((env.stations
          ⟨.TAG_EXACT, parts.2.2, true, none, some .NAME, some false⟩).filter
        russianStation)
  else if parts.1 = "tag" then
    (tagIndex
        (env.stations ⟨.COUNTRY_CODE_EXACT, "RU", true, none, none, none⟩)).map
      mkTagNode
  else if pyFalsy item.identifier then [tagEntryNode]
  else []

/-- The proximity predicate of `_filter_local_stations`: both coordinates
present, country code `"RU"`, and a converged `vincenty` distance strictly
below 100 km. -/
def localPred (v : ℚ × ℚ → ℚ × ℚ → Bool → Option ℚ) (latitude longitude : ℚ)
    (station : Station) : Bool :=
  match station.latitude, station.longitude with
  | some slat, some slon =>
    station.countrycode == "RU" &&
      match v (latitude, longitude) (slat, slon) false with
      | some dist => decide (dist < 100)
      | none => false
  | _, _ => false

/-- The proximity filter `_filter_local_stations`. -/
def _filter_local_stations (v : ℚ × ℚ → ℚ × ℚ → Bool → Option ℚ)
    (stations : List Station) (latitude longitude : ℚ) : List Station :=
  stations.filter (localPred v latitude longitude)

/-- The local builder `_async_build_local`: at the root, query stations by
exact country code `"RU"` ordered by name, then keep only those near the
configured home coordinate. -/
def _async_build_local (env : Env) (item : MediaSourceItem) :
    List BrowseMediaSource :=
  if pyFalsy item.identifier then
    _async_build_stations env
      (_filter_local_stations env.vincenty
        (env.stations
          ⟨.COUNTRY_CODE_EXACT, "RU", true, none, some .NAME, some false⟩)
        env.latitude env.longitude)
  else []

/-- The resolver `async_resolve_media`: fetch the station by id; a missing
station raises "Radio station is no longer available"; an undeterminable mime
type raises "Could not determine stream type of radio station"; otherwise the
resolved URL is returned with the mime type.  The fire-and-forget
`station_click` side effect carries no data and is not modelled. -/
def async_resolve_media (env : Env) (identifier : String) :
    Except String PlayMedia :=
  match env.station identifier with
  | none => .error "Radio station is no longer available"
  | some station =>
    match _async_get_station_mime_type env station with
    | none => .error "Could not determine stream type of radio station"
    | some mime_type => .ok ⟨station.url_resolved, mime_type⟩

/-- The browse entry point `async_browse_media`: one non-playable expandable
container whose children are the five builders' outputs concatenated in the
source's fixed order. -/
def async_browse_media (env : Env) (item : MediaSourceItem) :
    BrowseMediaSource :=
  .mk DOMAIN none .CHANNEL MediaType.MUSIC env.title false true none
    (some .DIRECTORY)
    (some
      (_async_build_popular env item ++ _async_build_by_tag env item ++
        _async_build_by_language env item ++ _async_build_local env item ++
          _async_build_by_country env item))

/-- A sample station with a known codec, used in concrete evaluations. -/
def stationMp3 : Station :=
  ⟨"id-mp3", "Radio One", "MP3", "http://x/stream", "http://x/stream",
    "fav1", some 55, some 37, "RU", "russian", "rock, pop"⟩

/-- A sample station with the sentinel codec `"UNKNOWN"` and a stream URL
whose `.mp3` extension the mime guesser recognizes. -/
def stationUnknown : Station :=
  ⟨"id-unk", "Radio Two", "UNKNOWN", "http://x/stream.mp3",
    "http://x/stream.mp3", "", none, none, "RU", "", ""⟩

/-- A concrete model of `mimetypes.guess_type` that recognizes the `.mp3`
extension, used in concrete evaluations. -/
def guessDemo (url : String) : Option String :=
  if List.isSuffixOf ".mp3".data url.data then some "audio/mpeg" else none

/-- A concrete environment for concrete evaluations: a two-station directory,
the `.mp3`-aware mime guesser, and a distance oracle that converges only on
`stationMp3`'s coordinate. -/
def envDemo : Env :=
  ⟨fun q => if q.filter_by = .TAG_EXACT then [stationMp3]
            else [stationMp3, stationUnknown],
    fun i => if i = "id-unk" then some stationUnknown
             else if i = "id-mp3" then some stationMp3 else none,
    guessDemo,
    fun _ p _ => if p = (55, 37) then some 5 else none,
    55, 37, "Radio Browser"⟩

/-! ### Helper lemmas -/

theorem length_insertSorted (le : α → α → Bool) (a : α) (l : List α) :
    (insertSorted le a l).length = l.length + 1 := by
  induction l with
  | nil => rfl
  | cons b l ih =>
    simp only [insertSorted]
    split
    · rfl
    · simp [ih]

theorem length_sortBy (le : α → α → Bool) (l : List α) :
    (sortBy le l).length = l.length := by
  induction l with
  | nil => rfl
  | cons a l ih => simp [sortBy, length_insertSorted, ih]

theorem mem_insertSorted (le : α → α → Bool) (a c : α) (l : List α) :
    c ∈ insertSorted le a l ↔ c = a ∨ c ∈ l := by
  induction l with
  | nil => simp [insertSorted]
  | cons b l ih =>
    simp only [insertSorted]
    split
    · simp [List.mem_cons]
    · simp only [List.mem_cons, ih]
      tauto

theorem pairwise_insertSorted (le : α → α → Bool)
    (htrans : ∀ x y z, le x y = true → le y z = true → le x z = true)
    (htot : ∀ x y, le x y = true ∨ le y x = true)
    (a : α) (l : List α) (hl : l.Pairwise (fun x y => le x y = true)) :
    (insertSorted le a l).Pairwise (fun x y => le x y = true) := by
  induction l with
  | nil => simp [insertSorted]
  | cons b l ih =>
    rcases List.pairwise_cons.mp hl with ⟨hb, hl2⟩
    simp only [insertSorted]
    split
    case isTrue h =>
      refine List.pairwise_cons.mpr ⟨?_, hl⟩
      intro c hc
      rcases List.mem_cons.mp hc with rfl | hc
      · exact h
      · exact htrans a b c h (hb c hc)
    case isFalse h =>
      refine List.pairwise_cons.mpr ⟨?_, ih hl2⟩
      intro c hc
      rcases (mem_insertSorted le a c l).mp hc with hca | hc
      · rcases htot a b with h2 | h2
        · exact absurd h2 h
        · rw [hca]
          exact h2
      · exact hb c hc

theorem pairwise_sortBy (le : α → α → Bool)
    (htrans : ∀ x y z, le x y = true → le y z = true → le x z = true)
    (htot : ∀ x y, le x y = true ∨ le y x = true) (l : List α) :
    (sortBy le l).Pairwise (fun x y => le x y = true) := by
  induction l with
  | nil => simp [sortBy]
  | cons a l ih => exact pairwise_insertSorted le htrans htot a (sortBy le l) ih

theorem lookup_cons_pair (a k : String) (v : Nat) (es : List (String × Nat)) :
    List.lookup a ((k, v) :: es) = if a = k then some v else List.lookup a es := by
  by_cases h : a = k
  · have hb : (a == k) = true := beq_iff_eq.mpr h
    simp [List.lookup, hb, h]
  · have hb : (a == k) = false := beq_eq_false_iff_ne.mpr h
    simp [List.lookup, hb, h]

theorem lookup_map_set (t : String) (n : Nat) (m : List (String × Nat)) (T : String) :
    (m.map (fun p => if p.1 = t then (p.1, n + 1) else p)).lookup T =
      if T = t then (m.lookup t).map (fun _ => n + 1) else m.lookup T := by
  induction m with
  | nil => by_cases h : T = t <;> simp [h]
  | cons kv m ih =>
    obtain ⟨k, v⟩ := kv
    simp only [List.map_cons]
    by_cases hkt : k = t
    · rw [if_pos hkt, lookup_cons_pair]
      by_cases hTk : T = k
      · have hTt : T = t := hTk.trans hkt
        rw [if_pos hTk, if_pos hTt, lookup_cons_pair, if_pos (hTt.symm.trans hTk)]
        rfl
      · have hTt : ¬ T = t := fun he => hTk (he.trans hkt.symm)
        rw [if_neg hTk, ih, if_neg hTt, if_neg hTt, lookup_cons_pair, if_neg hTk]
    · rw [if_neg hkt, lookup_cons_pair]
      by_cases hTk : T = k
      · have hTt : ¬ T = t := fun he => hkt (hTk.symm.trans he)
        rw [if_pos hTk, if_neg hTt, lookup_cons_pair, if_pos hTk]
      · rw [if_neg hTk, ih]
        by_cases hTt : T = t
        · rw [if_pos hTt, if_pos hTt, lookup_cons_pair,
            if_neg (fun he => hkt he.symm)]
        · rw [if_neg hTt, if_neg hTt, lookup_cons_pair, if_neg hTk]

theorem lookup_append_single (m : List (String × Nat)) (t T : String) (n : Nat) :
    (m ++ [(t, n)]).lookup T =
      match m.lookup T with
      | some v => some v
      | none => if t = T then some n else none := by
  induction m with
  | nil =>
    rw [List.nil_append, lookup_cons_pair]
    by_cases h : T = t
    · rw [if_pos h, if_pos h.symm]
      rfl
    · rw [if_neg h, if_neg (fun he => h he.symm)]
      rfl
  | cons kv m ih =>
    obtain ⟨k, v⟩ := kv
    rw [List.cons_append, lookup_cons_pair, lookup_cons_pair]
    by_cases hTk : T = k
    · rw [if_pos hTk, if_pos hTk]
    · rw [if_neg hTk, if_neg hTk, ih]

theorem countOf_bumpTag (m : List (String × Nat)) (t T : String) :
    countOf (bumpTag m t) T = countOf m T + (if T = t then 1 else 0) := by
  unfold bumpTag countOf
  rcases h : m.lookup t with _ | n
  · rw [lookup_append_single]
    by_cases hTt : T = t
    · subst hTt
      simp [h]
    · have : t ≠ T := fun he => hTt he.symm
      rcases m.lookup T with _ | v <;> simp [hTt, this]
  · rw [lookup_map_set]
    by_cases hTt : T = t
    · subst hTt
      simp [h]
    · simp [hTt]

theorem countOf_foldl_bumpTag (ps : List String) (m : List (String × Nat))
    (T : String) :
    countOf (ps.foldl bumpTag m) T = countOf m T + ps.count T := by
  induction ps generalizing m with
  | nil => simp
  | cons p ps ih =>
    rw [List.foldl_cons, ih, countOf_bumpTag, List.count_cons]
    by_cases h : T = p
    · subst h
      simp
      omega
    · have hb : (p == T) = false := beq_eq_false_iff_ne.mpr (fun he => h he.symm)
      simp [h, hb]

theorem build_stations_eq_filterMap (env : Env) (stations : List Station) :
    _async_build_stations env stations = stations.filterMap (renderStation env) := by
  induction stations with
  | nil => rfl
  | cons s rest ih =>
    simp only [_async_build_stations, renderStation, List.filterMap_cons]
    by_cases h : s.codec = "UNKNOWN"
    · simp [h, ih]
    · rcases hm : _async_get_station_mime_type env s with _ | mt <;> simp [h, hm, ih]

/-! ### The claims -/

/-- C2: for every station list and tag name `T`, the count computed by the
tag aggregation (`tag_count` in `_async_build_by_tag`) equals the number of
(station, occurrence) pairs where `T` appears as a whitespace-trimmed,
non-empty, comma-separated component of that station's `tags` field; a
station contributing `T` twice counts twice, and matching is case-sensitive
with no normalization. -/
theorem tag_count_matches_occurrences (stations : List Station) (T : String) :
    countOf (tagCounts stations) T =
      (stations.map (fun s => (tagPieces s.tags).count T)).sum := by
  suffices h : ∀ m : List (String × Nat),
      countOf
          (stations.foldl
            (fun m station =>
              if station.tags = "" then m
              else (tagPieces station.tags).foldl bumpTag m)
            m) T =
        countOf m T + (stations.map (fun s => (tagPieces s.tags).count T)).sum by
    have h0 := h []
    simpa [tagCounts, countOf] using h0
  intro m
  induction stations generalizing m with
  | nil => simp
  | cons s rest ih =>
    rw [List.foldl_cons]
    by_cases h : s.tags = ""
    · have hp : (tagPieces "").count T = 0 := rfl
      rw [if_pos h, ih]
      simp [h, hp]
    · rw [if_neg h, ih, countOf_foldl_bumpTag]
      simp only [List.map_cons, List.sum_cons]
      omega

theorem localPred_iff (v : ℚ × ℚ → ℚ × ℚ → Bool → Option ℚ) (la lo : ℚ)
    (s : Station) :
    localPred v la lo s = true ↔
      ∃ slat slon, s.latitude = some slat ∧ s.longitude = some slon ∧
        s.countrycode = "RU" ∧
        ∃ d, v (la, lo) (slat, slon) false = some d ∧ d < 100 := by
  unfold localPred
  rcases hla : s.latitude with _ | slat
  · simp [hla]
  · rcases hlo : s.longitude with _ | slon
    · simp [hlo]
    · rcases hv : v (la, lo) (slat, slon) false with _ | d
      · simp [hv]
      · simp [hv, Bool.and_eq_true, beq_iff_eq, decide_eq_true_eq]

/-- C3: for every station list and origin coordinate, the proximity filter
`_filter_local_stations` retains a station if and only if it has both
coordinates present, its country code is the configured region `"RU"`, and
the external `vincenty` distance from the origin is defined and strictly
less than 100 km; a station on which the distance function reports no result
is excluded without error. -/
theorem filter_local_retains_iff (v : ℚ × ℚ → ℚ × ℚ → Bool → Option ℚ)
    (stations : List Station) (la lo : ℚ) (s : Station) :
    s ∈ _filter_local_stations v stations la lo ↔
      s ∈ stations ∧
        ∃ slat slon, s.latitude = some slat ∧ s.longitude = some slon ∧
          s.countrycode = "RU" ∧
          ∃ d, v (la, lo) (slat, slon) false = some d ∧ d < 100 := by
  rw [_filter_local_stations, List.mem_filter, localPred_iff]

/-- C4: `async_resolve_media` fails with the "Radio station is no longer
available" error exactly when the id is not in the directory; on an existing
station on which the mime-type determination (fixed table, then URL guess)
yields nothing it fails with the "Could not determine stream type of radio
station" error; on success it returns the station's `url_resolved` paired
with the determined mime type. -/
theorem resolve_contract (env : Env) (identifier : String) :
    (async_resolve_media env identifier =
        .error "Radio station is no longer available" ↔
      env.station identifier = none) ∧
    (∀ s, env.station identifier = some s →
      _async_get_station_mime_type env s = none →
      async_resolve_media env identifier =
        .error "Could not determine stream type of radio station") ∧
    (∀ s mt, env.station identifier = some s →
      _async_get_station_mime_type env s = some mt →
      async_resolve_media env identifier = .ok ⟨s.url_resolved, mt⟩) := by
  have hne : ("Could not determine stream type of radio station" : String) ≠
      "Radio station is no longer available" := by decide
  unfold async_resolve_media
  rcases h : env.station identifier with _ | s
  · simp
  · rcases hm : _async_get_station_mime_type env s with _ | mt
    · refine ⟨by simp [hm, hne], fun s2 hs2 hm2 => ?_, fun s2 mt2 hs2 hm2 => ?_⟩
      · obtain rfl : s = s2 := Option.some.inj hs2
        simp [hm]
      · obtain rfl : s = s2 := Option.some.inj hs2
        rw [hm] at hm2
        cases hm2
    · refine ⟨by simp [hm], fun s2 hs2 hm2 => ?_, fun s2 mt2 hs2 hm2 => ?_⟩
      · obtain rfl : s = s2 := Option.some.inj hs2
        rw [hm] at hm2
        cases hm2
      · obtain rfl : s = s2 := Option.some.inj hs2
        rw [hm] at hm2
        obtain rfl : mt = mt2 := Option.some.inj hm2
        simp [hm]

/-- C5 (amended): on an existing station whose codec is the sentinel
`"UNKNOWN"`, `async_resolve_media` fails with the "Could not determine stream
type" error exactly when the URL-extension guess also yields no mime type
(`"UNKNOWN"` is not a key of the fixed table); unlike the station renderer,
the resolver has no special case for `"UNKNOWN"`, so when a mime type can be
guessed from the station's URL the resolve succeeds despite the codec. -/
theorem resolve_unknown_codec (env : Env) (identifier : String) (s : Station)
    (hs : env.station identifier = some s) (hc : s.codec = "UNKNOWN") :
    (async_resolve_media env identifier =
        .error "Could not determine stream type of radio station" ↔
      env.guess_type s.url = none) ∧
    (∀ mt, env.guess_type s.url = some mt →
      async_resolve_media env identifier = .ok ⟨s.url_resolved, mt⟩) := by
  have htab : CODEC_TO_MIMETYPE s.codec = none := by
    rw [hc]
    decide
  have hmime : _async_get_station_mime_type env s = env.guess_type s.url := by
    unfold _async_get_station_mime_type
    rw [htab]
  unfold async_resolve_media
  rw [hs]
  rcases hg : env.guess_type s.url with _ | mt
  · simp [hmime, hg]
  · simp [hmime, hg]

/-- C5 counterexample: in the concrete environment `envDemo` the station
`"id-unk"` exists and has codec `"UNKNOWN"`, yet `async_resolve_media`
succeeds (the `.mp3` URL guess supplies `audio/mpeg`) instead of failing with
the "Could not determine stream type" error the claim requires. -/
theorem resolve_unknown_codec_cex :
    envDemo.station "id-unk" = some stationUnknown ∧
      stationUnknown.codec = "UNKNOWN" ∧
      async_resolve_media envDemo "id-unk" =
        .ok ⟨"http://x/stream.mp3", "audio/mpeg"⟩ ∧
      async_resolve_media envDemo "id-unk" ≠
        .error "Could not determine stream type of radio station" :=
  ⟨rfl, rfl, rfl, fun hcontra => nomatch hcontra⟩

/-- C5 witness: the amended statement holds in the concrete environment
`envDemo` at station `"id-unk"`. -/
theorem resolve_unknown_codec_witness :
    (async_resolve_media envDemo "id-unk" =
        .error "Could not determine stream type of radio station" ↔
      envDemo.guess_type stationUnknown.url = none) ∧
    (∀ mt, envDemo.guess_type stationUnknown.url = some mt →
      async_resolve_media envDemo "id-unk" =
        .ok ⟨stationUnknown.url_resolved, mt⟩) :=
  resolve_unknown_codec envDemo "id-unk" stationUnknown rfl rfl

/-- C6: for every station whose codec is a key of the fixed table
`CODEC_TO_MIMETYPE`, the mime-type determination returns exactly the table's
value for that codec, regardless of the station's URL; the URL-extension
guess is consulted only when the table lookup yields nothing. -/
theorem codec_table_priority (env : Env) (s : Station) :
    (∀ mt, CODEC_TO_MIMETYPE s.codec = some mt →
      _async_get_station_mime_type env s = some mt) ∧
    (CODEC_TO_MIMETYPE s.codec = none →
      _async_get_station_mime_type env s = env.guess_type s.url) := by
  unfold _async_get_station_mime_type
  rcases h : CODEC_TO_MIMETYPE s.codec with _ | mt
  · simp
  · simp

/-- C7: a station with codec `"UNKNOWN"` yields no node: the per-station
renderer returns nothing for it even when a mime type could be guessed from
its URL, and the station-list mapper's output is unchanged by deleting every
such station from its input. -/
theorem unknown_codec_not_rendered (env : Env) (stations : List Station) :
    _async_build_stations env stations =
      _async_build_stations env
        (stations.filter (fun s => decide (s.codec ≠ "UNKNOWN"))) ∧
    ∀ s : Station, s.codec = "UNKNOWN" → renderStation env s = none := by
  constructor
  · induction stations with
    | nil => rfl
    | cons s rest ih =>
      rw [List.filter_cons]
      by_cases h : s.codec = "UNKNOWN"
      · have hd : decide (s.codec ≠ "UNKNOWN") = false := by simp [h]
        rw [hd]
        simp only [Bool.false_eq_true, if_false]
        simp only [_async_build_stations]
        rw [if_pos h]
        exact ih
      · have hd : decide (s.codec ≠ "UNKNOWN") = true := by simp [h]
        rw [hd, if_pos rfl]
        simp only [_async_build_stations]
        rw [if_neg h, if_neg h]
        rcases hm : _async_get_station_mime_type env s with _ | mt <;>
          simp [hm, ih]
  · intro s h
    simp [renderStation, h]

/-- C10: the station-to-node mapper produces exactly one node per retained
station (codec not `"UNKNOWN"` and a determinable mime type), in the same
relative order as the input list, and each produced node carries the
station's uuid as identifier, name as title, favicon as thumbnail,
`can_play = true` and `can_expand = false`. -/
theorem build_stations_shape (env : Env) (stations : List Station) :
    _async_build_stations env stations =
      stations.filterMap (renderStation env) ∧
    (∀ s : Station, (renderStation env s).isSome ↔
      (s.codec ≠ "UNKNOWN" ∧ (_async_get_station_mime_type env s).isSome)) ∧
    (∀ s node, renderStation env s = some node →
      node.identifier = some s.uuid ∧ node.title = s.name ∧
        node.thumbnail = some s.favicon ∧ node.can_play = true ∧
        node.can_expand = false) := by
  refine ⟨build_stations_eq_filterMap env stations, ?_, ?_⟩
  · intro s
    unfold renderStation
    by_cases h : s.codec = "UNKNOWN"
    · simp [h]
    · rcases hm : _async_get_station_mime_type env s with _ | mt <;> simp [h, hm]
  · intro s node hnode
    unfold renderStation at hnode
    by_cases h : s.codec = "UNKNOWN"
    · rw [if_pos h] at hnode
      cases hnode
    · rw [if_neg h] at hnode
      rcases hm : _async_get_station_mime_type env s with _ | mt
      · rw [hm] at hnode
        cases hnode
      · rw [hm] at hnode
        obtain rfl := Option.some.inj hnode
        exact ⟨rfl, rfl, rfl, rfl, rfl⟩

/-- C1: browsing with identifier exactly `"tag"` returns the tag-category
index: at most 100 nodes, one per entry of the ranked tag list, whose
entries are sorted alphabetically by tag name. -/
theorem tag_index_top100_sorted (env : Env) :
    (_async_build_by_tag env ⟨some "tag"⟩).length ≤ 100 ∧
      _async_build_by_tag env ⟨some "tag"⟩ =
        (tagIndex
            (env.stations
              ⟨.COUNTRY_CODE_EXACT, "RU", true, none, none, none⟩)).map
          mkTagNode ∧
      (tagIndex
          (env.stations
            ⟨.COUNTRY_CODE_EXACT, "RU", true, none, none, none⟩)).Pairwise
        (fun a b => a.1 ≤ b.1) := by
  have hdisp : _async_build_by_tag env ⟨some "tag"⟩ =
      (tagIndex
          (env.stations
            ⟨.COUNTRY_CODE_EXACT, "RU", true, none, none, none⟩)).map
        mkTagNode := rfl
  constructor
  · rw [hdisp, List.length_map]
    unfold tagIndex
    rw [length_sortBy, List.length_take]
    exact Nat.min_le_left _ _
  constructor
  · exact hdisp
  · unfold tagIndex
    refine List.Pairwise.imp (fun h => of_decide_eq_true h)
      (pairwise_sortBy _ ?_ ?_ _)
    · intro x y z hxy hyz
      exact decide_eq_true (le_trans (of_decide_eq_true hxy) (of_decide_eq_true hyz))
    · intro x y
      rcases le_total x.1 y.1 with h | h
      · exact Or.inl (decide_eq_true h)
      · exact Or.inr (decide_eq_true h)

/-- C9: for an identifier of the form `"tag/<name>"` with non-empty name,
the by-tag builder queries the directory by that exact tag, keeps only
stations whose country code is `"RU"` or whose lowercased language contains
`"russian"`, and renders the retained stations as leaf nodes. -/
theorem tag_detail_regional_filter (env : Env) (name : String)
    (h : name ≠ "") :
    _async_build_by_tag env ⟨some ("tag/" ++ name)⟩ =
      _async_build_stations env
        ((env.stations
            ⟨.TAG_EXACT, name, true, none, some .NAME, some false⟩).filter
          russianStation) := by
  have hdata : ("tag/" ++ name).data = 't' :: 'a' :: 'g' :: '/' :: name.data := by
    rw [String.data_append]
    rfl
  have hsplit : splitFirst '/' ("tag/" ++ name).data =
      some (['t', 'a', 'g'], name.data) := by
    rw [hdata]
    rfl
  have hpart : pyPartition ("tag/" ++ name) '/' = ("tag", "/", name) := by
    unfold pyPartition
    rw [hsplit]
  unfold _async_build_by_tag
  simp only [Option.getD_some]
  rw [hpart]
  dsimp only
  rw [if_pos (show ("tag" : String) = "tag" ∧ name ≠ "" from ⟨rfl, h⟩)]

/-- C9 witness: the by-tag detail dispatch evaluated in the concrete
environment at tag `"jazz"`. -/
theorem tag_detail_regional_filter_witness :
    ("jazz" : String) ≠ "" ∧
      _async_build_by_tag envDemo ⟨some ("tag/" ++ "jazz")⟩ =
        _async_build_stations envDemo
          ((envDemo.stations
              ⟨.TAG_EXACT, "jazz", true, none, some .NAME, some false⟩).filter
            russianStation) :=
  ⟨by decide, tag_detail_regional_filter envDemo "jazz" (by decide)⟩

/-- C8: a root browse request (falsy identifier) returns one non-playable,
expandable container node whose children are, in this fixed order: the
popular stations, the single tag-category entry node, the language-filtered
stations, the proximity-filtered local stations, and the country-filtered
stations. -/
theorem browse_root_children_order (env : Env) (item : MediaSourceItem)
    (h : pyFalsy item.identifier = true) :
    async_browse_media env item =
      .mk DOMAIN none .CHANNEL MediaType.MUSIC env.title false true none
        (some .DIRECTORY)
        (some
          (_async_build_stations env
              (env.stations
                ⟨.COUNTRY_CODE_EXACT, "RU", true, some 250, some .CLICK_COUNT,
                  some true⟩) ++
            [tagEntryNode] ++
            _async_build_stations env
              (env.stations
                ⟨.LANGUAGE_EXACT, "russian", true, none, some .NAME,
                  some false⟩) ++
            _async_build_stations env
              (_filter_local_stations env.vincenty
                (env.stations
                  ⟨.COUNTRY_CODE_EXACT, "RU", true, none, some .NAME,
                    some false⟩)
                env.latitude env.longitude) ++
            _async_build_stations env
              (env.stations
                ⟨.COUNTRY_CODE_EXACT, "RU", true, none, some .NAME,
                  some false⟩))) := by
  have hid : item.identifier.getD "" = "" := by
    rcases hi : item.identifier with _ | s
    · rfl
    · rw [hi] at h
      have hs : s = "" := by simpa [pyFalsy] using h
      rw [hs]
      rfl
  have htag : _async_build_by_tag env item = [tagEntryNode] := by
    unfold _async_build_by_tag
    rw [hid]
    have hp : pyPartition "" '/' = ("", "", "") := rfl
    rw [hp]
    dsimp only
    rw [if_neg (by decide : ¬ (("" : String) = "tag" ∧ ("" : String) ≠ ""))]
    rw [if_neg (by decide : ¬ ("" : String) = "tag")]
    simp [h]
  unfold async_browse_media _async_build_popular _async_build_by_language
    _async_build_local _async_build_by_country
  rw [htag]
  simp [h]

/-- C8 witness: the root browse contract evaluated in the concrete
environment at the root request. -/
theorem browse_root_children_order_witness :
    async_browse_media envDemo ⟨none⟩ =
      .mk DOMAIN none .CHANNEL MediaType.MUSIC envDemo.title false true none
        (some .DIRECTORY)
        (some
          (_async_build_stations envDemo
              (envDemo.stations
                ⟨.COUNTRY_CODE_EXACT, "RU", true, some 250, some .CLICK_COUNT,
                  some true⟩) ++
            [tagEntryNode] ++
            _async_build_stations envDemo
              (envDemo.stations
                ⟨.LANGUAGE_EXACT, "russian", true, none, some .NAME,
                  some false⟩) ++
            _async_build_stations envDemo
              (_filter_local_stations envDemo.vincenty
                (envDemo.stations
                  ⟨.COUNTRY_CODE_EXACT, "RU", true, none, some .NAME,
                    some false⟩)
                envDemo.latitude envDemo.longitude) ++
            _async_build_stations envDemo
              (envDemo.stations
                ⟨.COUNTRY_CODE_EXACT, "RU", true, none, some .NAME,
                  some false⟩))) :=
  browse_root_children_order envDemo ⟨none⟩ rfl
